import Mathlib

/-!
Shallow embedding of the RenderScript forEach kernel dispatcher from
`src/renderscript/v8/rs_support/driver/rsdBcc.cpp` (the `MTLaunchStruct`
machinery, the worker functions `wc_xy` / `wc_x`, and
`rsdScriptInvokeForEach`), together with theorems checking the
natural-language specification of the dispatcher against this embedding.

Machine integers of the source (`uint32_t`) are modelled as `Nat`: none of
the verified properties concerns wrap-around behaviour, and every quantity
involved (dimensions, slice counters, strides, addresses) stays far below
`2^32` on the inputs the theorems range over.
-/

namespace RsdDriver

/-- One kernel invocation as performed by the driver: the `in`/`out` byte
addresses handed to the kernel function and the `(x, y, z, ar)` coordinates
passed alongside them (source: the `bare_fn(p.in, p.out, p.usr, x, y, z, ar)`
call sites). Pointers are modelled as byte offsets (`Nat`). -/
structure Invocation where
  inAddr : Nat
  outAddr : Nat
  x : Nat
  y : Nat
  z : Nat
  ar : Nat
deriving DecidableEq, Repr

/-- Embedding of the fields of `MTLaunchStruct` that the launch logic reads. -/
structure MTLaunchStruct where
  mSliceSize : Nat
  ptrIn : Nat
  eStrideIn : Nat
  ptrOut : Nat
  eStrideOut : Nat
  yStrideIn : Nat
  yStrideOut : Nat
  xStart : Nat
  xEnd : Nat
  yStart : Nat
  yEnd : Nat
  zStart : Nat
  zEnd : Nat
  arrayStart : Nat
  arrayEnd : Nat
  dimX : Nat
  dimY : Nat
  dimZ : Nat
deriving DecidableEq, Repr

/-- The slice claimed for counter value `i` by a worker:
`(axisStart + i*sliceSize, min (axisStart + i*sliceSize + sliceSize) axisEnd)`
(source: the `android_atomic_inc` / `rsMin` lines of `wc_xy` and `wc_x`). -/
def claimSlice (axisStart axisEnd sliceSize i : Nat) : Nat × Nat :=
  (axisStart + i * sliceSize,
   min (axisStart + i * sliceSize + sliceSize) axisEnd)

/-- Number of counter values that yield a non-empty slice; the first empty
slice is claimed at this counter value, which is where each worker stops. -/
def numSlices (axisStart axisEnd sliceSize : Nat) : Nat :=
  (axisEnd - axisStart + (sliceSize - 1)) / sliceSize

example : claimSlice 0 8 3 2 = (6, 8) := by decide
example : numSlices 0 8 3 = 3 := by decide
example : numSlices 5 5 1 = 0 := by decide

/-- The kernel invocations performed by `wc_xy` for one claimed counter value
`slice`. Source: the body of the `while (1)` loop of `wc_xy`: the claimed
Y sub-range is `[yStart + slice*mSliceSize, min (… + mSliceSize) yEnd)`; for
each `y` in it the row pointers are `ptrIn + yStrideIn * y` /
`ptrOut + yStrideOut * y`, advanced by the element strides while `x` runs over
the full `[xStart, xEnd)`; the kernel receives `(x, y, 0, 0)`. -/
def wcXYSlice (m : MTLaunchStruct) (slice : Nat) : List Invocation :=
  let yS := m.yStart + slice * m.mSliceSize
  let yE := min (yS + m.mSliceSize) m.yEnd
  (List.range' yS (yE - yS)).flatMap fun y =>
    (List.range (m.xEnd - m.xStart)).map fun i =>
      { inAddr := m.ptrIn + m.yStrideIn * y + m.eStrideIn * i,
        outAddr := m.ptrOut + m.yStrideOut * y + m.eStrideOut * i,
        x := m.xStart + i, y := y, z := 0, ar := 0 }

/-- The kernel invocations performed by `wc_x` for one claimed counter value
`slice`. Source: the body of the `while (1)` loop of `wc_x`. Note the loop
bound of the source: the pointers are offset to the claimed slice's start
(`eStride * xStart` with the slice-local `xStart`), but the `for` loop runs
`x` over the *full* range `mtls->xStart .. mtls->xEnd`, not over the claimed
slice; the embedding reproduces that behaviour exactly. -/
def wcXSlice (m : MTLaunchStruct) (slice : Nat) : List Invocation :=
  let xS := m.xStart + slice * m.mSliceSize
  let xE := min (xS + m.mSliceSize) m.xEnd
  if xE ≤ xS then []
  else
    (List.range (m.xEnd - m.xStart)).map fun i =>
      { inAddr := m.ptrIn + m.eStrideIn * xS + m.eStrideIn * i,
        outAddr := m.ptrOut + m.eStrideOut * xS + m.eStrideOut * i,
        x := m.xStart + i, y := 0, z := 0, ar := 0 }

/-- All invocations of a parallel Y-sliced launch, in counter order. Workers
claim counter values `0, 1, 2, …` via `android_atomic_inc` and stop at the
first empty slice, so the non-empty counter values `0 .. numSlices - 1` are
each processed exactly once, by some worker, independently of the worker
count and interleaving. -/
def wcXYRun (m : MTLaunchStruct) : List Invocation :=
  (List.range (numSlices m.yStart m.yEnd m.mSliceSize)).flatMap (wcXYSlice m)

/-- All invocations of a parallel X-sliced launch, in counter order. -/
def wcXRun (m : MTLaunchStruct) : List Invocation :=
  (List.range (numSlices m.xStart m.xEnd m.mSliceSize)).flatMap (wcXSlice m)

/-- The sequential fallback loop nest of `rsdScriptInvokeForEach` (the `else`
branch): `ar`, `z`, `y` loops outermost to innermost, the row base offset
`dimX*dimY*dimZ*ar + dimX*dimY*z + dimX*y`, pointers
`ptr + eStride * offset` advanced by the element stride while `x` runs over
`[xStart, xEnd)`; the kernel receives `(x, y, z, ar)`. -/
def seqInvocations (m : MTLaunchStruct) : List Invocation :=
  (List.range' m.arrayStart (m.arrayEnd - m.arrayStart)).flatMap fun ar =>
    (List.range' m.zStart (m.zEnd - m.zStart)).flatMap fun z =>
      (List.range' m.yStart (m.yEnd - m.yStart)).flatMap fun y =>
        (List.range (m.xEnd - m.xStart)).map fun i =>
          { inAddr := m.ptrIn +
              m.eStrideIn * (m.dimX * m.dimY * m.dimZ * ar +
                m.dimX * m.dimY * z + m.dimX * y) + m.eStrideIn * i,
            outAddr := m.ptrOut +
              m.eStrideOut * (m.dimX * m.dimY * m.dimZ * ar +
                m.dimX * m.dimY * z + m.dimX * y) + m.eStrideOut * i,
            x := m.xStart + i, y := y, z := z, ar := ar }

/-- The error reported through `Context::setError`; the only code path of the
dispatcher that reports one uses `RS_ERROR_BAD_SCRIPT`
("rsForEach called with null allocations"). -/
inductive RsError
  | badScript
deriving DecidableEq, Repr

/-- The part of `RsdHal` the dispatcher reads: `mWorkers.mCount` and the
re-entrancy flag `mInForEach`. -/
structure RsdHal where
  workersCount : Nat
  mInForEach : Bool
deriving DecidableEq, Repr

/-- The part of the script the dispatcher reads: `s->mHal.info.isThreadable`. -/
structure ScriptInfo where
  isThreadable : Bool
deriving DecidableEq, Repr

/-- The part of an `Allocation` the dispatcher reads: the type's X/Y/Z
dimensions and element size, and the driver data `lod[0].mallocPtr` (modelled
as a byte offset) and `lod[0].stride` (the row stride). -/
structure Alloc where
  dimX : Nat
  dimY : Nat
  dimZ : Nat
  elementSizeBytes : Nat
  mallocPtr : Nat
  stride : Nat
deriving DecidableEq, Repr

/-- The caller-supplied clip descriptor `RsScriptCall`; the dispatcher reads
only the `xStart/xEnd/yStart/yEnd` fields. -/
structure RsScriptCall where
  xStart : Nat
  xEnd : Nat
  yStart : Nat
  yEnd : Nat
  zStart : Nat
  zEnd : Nat
  arrayStart : Nat
  arrayEnd : Nat
deriving DecidableEq, Repr

/-- The resolved iteration bounds of a launch (the range fields of
`MTLaunchStruct` right after the clip/flooring block of
`rsdScriptInvokeForEach`, together with the dimensions they were resolved
against). -/
structure ResolvedBounds where
  xStart : Nat
  xEnd : Nat
  yStart : Nat
  yEnd : Nat
  zStart : Nat
  zEnd : Nat
  arrayStart : Nat
  arrayEnd : Nat
  dimX : Nat
  dimY : Nat
  dimZ : Nat
deriving DecidableEq, Repr

/-- Outcome of the argument-validation prefix of `rsdScriptInvokeForEach`:
either the missing-allocations error return, an early return because a
clipped axis clamped to an empty range, or the resolved bounds. -/
inductive ResolveResult
  | missingBuffer
  | emptyClip
  | ok (b : ResolvedBounds)
deriving DecidableEq, Repr

/-- Dimensions used for the launch: from `ain` if present, else from `aout`,
else the null-allocations error (source: the `if (ain) … else if (aout) …
else setError` block). -/
def allocDims : Option Alloc → Option Alloc → Option (Nat × Nat × Nat)
  | some a, _ => some (a.dimX, a.dimY, a.dimZ)
  | none, some a => some (a.dimX, a.dimY, a.dimZ)
  | none, none => none

/-- Resolution of one clipped axis (source: the
`if (!sc || (sc->xEnd == 0)) … else …` blocks): absent clip or an end field
of 0 selects the full `[0, dim)` range; otherwise both bounds are clamped by
`rsMin(dim, ·)` and an empty clamped range triggers the early return
(modelled as `none`). -/
def resolveAxis (dim : Nat) (clip : Option (Nat × Nat)) : Option (Nat × Nat) :=
  match clip with
  | none => some (0, dim)
  | some (s, e) =>
    if e = 0 then some (0, dim)
    else if min dim e ≤ min dim s then none
    else some (min dim s, min dim e)

/-- The validation/resolution prefix of `rsdScriptInvokeForEach`: dimension
lookup, X clip, Y clip, then the `rsMax((uint32_t)1, ·)` flooring of all four
end bounds. The Z and array bounds are never assigned before the flooring
(they keep their `memset` value 0), so they resolve to `[0, max 1 0)`. -/
def resolveBounds (ain aout : Option Alloc) (sc : Option RsScriptCall) :
    ResolveResult :=
  match allocDims ain aout with
  | none => .missingBuffer
  | some (dimX, dimY, dimZ) =>
    match resolveAxis dimX (sc.map fun c => (c.xStart, c.xEnd)) with
    | none => .emptyClip
    | some (xS, xE) =>
      match resolveAxis dimY (sc.map fun c => (c.yStart, c.yEnd)) with
      | none => .emptyClip
      | some (yS, yE) =>
        .ok { xStart := xS, xEnd := max 1 xE,
              yStart := yS, yEnd := max 1 yE,
              zStart := 0, zEnd := max 1 0,
              arrayStart := 0, arrayEnd := max 1 0,
              dimX := dimX, dimY := dimY, dimZ := dimZ }

/-- Assembly of the `MTLaunchStruct` fields from the allocations and the
resolved bounds (source: the `mtls.ptrIn/eStrideIn/yStrideIn` and
`mtls.ptrOut/eStrideOut/yStrideOut` blocks; absent allocations leave the
`memset` zeroes in place). `mSliceSize` carries its initial value 10. -/
def mkMTLaunch (ain aout : Option Alloc) (b : ResolvedBounds) :
    MTLaunchStruct :=
  { mSliceSize := 10,
    ptrIn := (match ain with | some a => a.mallocPtr | none => 0),
    eStrideIn := (match ain with | some a => a.elementSizeBytes | none => 0),
    yStrideIn := (match ain with | some a => a.stride | none => 0),
    ptrOut := (match aout with | some a => a.mallocPtr | none => 0),
    eStrideOut := (match aout with | some a => a.elementSizeBytes | none => 0),
    yStrideOut := (match aout with | some a => a.stride | none => 0),
    xStart := b.xStart, xEnd := b.xEnd, yStart := b.yStart, yEnd := b.yEnd,
    zStart := b.zStart, zEnd := b.zEnd,
    arrayStart := b.arrayStart, arrayEnd := b.arrayEnd,
    dimX := b.dimX, dimY := b.dimY, dimZ := b.dimZ }

/-- The slice size computation of the parallel branch:
`extent / (workersCount * 4)`, raised to 1 when the quotient is below 1. -/
def computeSliceSize (extent workersCount : Nat) : Nat :=
  let s := extent / (workersCount * 4)
  if s < 1 then 1 else s

/-- Which axis a parallel launch slices. -/
inductive Axis
  | x
  | y
deriving DecidableEq, Repr

/-- Observable outcome of one `rsdScriptInvokeForEach` call: the error it
reported (if any), the kernel invocations it performed in program order,
whether the parallel branch was taken and with which sliced axis and slice
size, the value of `dc->mInForEach` while the kernel invocations ran, and the
value of `dc->mInForEach` when the call returns. -/
structure DispatchResult where
  err : Option RsError
  invocations : List Invocation
  usedParallel : Bool
  slicedAxis : Option Axis
  sliceSize : Nat
  inForEachDuring : Bool
  mInForEachFinal : Bool
deriving DecidableEq, Repr

/-- Embedding of `rsdScriptInvokeForEach`: validation/resolution prefix, then
the parallel-vs-sequential decision
`(dc->mWorkers.mCount > 1) && s->mHal.info.isThreadable && !dc->mInForEach`,
the Y-vs-X axis choice `mtls.dimY > 1`, the slice size computation, and the
launch (parallel worker runs or the sequential fallback loop nest). The
parallel branch sets `dc->mInForEach` for the duration of the launch and
clears it afterwards; every other path leaves the flag untouched. -/
def rsdScriptInvokeForEach (dc : RsdHal) (s : ScriptInfo)
    (ain aout : Option Alloc) (sc : Option RsScriptCall) : DispatchResult :=
  match resolveBounds ain aout sc with
  | .missingBuffer =>
    { err := some .badScript, invocations := [], usedParallel := false,
      slicedAxis := none, sliceSize := 10,
      inForEachDuring := dc.mInForEach, mInForEachFinal := dc.mInForEach }
  | .emptyClip =>
    { err := none, invocations := [], usedParallel := false,
      slicedAxis := none, sliceSize := 10,
      inForEachDuring := dc.mInForEach, mInForEachFinal := dc.mInForEach }
  | .ok b =>
    let m := mkMTLaunch ain aout b
    if 1 < dc.workersCount ∧ s.isThreadable = true ∧ dc.mInForEach = false then
      if 1 < b.dimY then
        let ss := computeSliceSize b.dimY dc.workersCount
        { err := none, invocations := wcXYRun { m with mSliceSize := ss },
          usedParallel := true, slicedAxis := some .y, sliceSize := ss,
          inForEachDuring := true, mInForEachFinal := false }
      else
        let ss := computeSliceSize b.dimX dc.workersCount
        { err := none, invocations := wcXRun { m with mSliceSize := ss },
          usedParallel := true, slicedAxis := some .x, sliceSize := ss,
          inForEachDuring := true, mInForEachFinal := false }
    else
      { err := none, invocations := seqInvocations m, usedParallel := false,
        slicedAxis := none, sliceSize := 10,
        inForEachDuring := dc.mInForEach, mInForEachFinal := dc.mInForEach }

/-- One kernel write: the kernel's result for the invocation's coordinates is
stored at the invocation's output address (one byte per element, i.e. an
element stride of 1 in the buffers this is applied to). -/
def writeInvocation (f : Nat → Nat → Nat → Nat → Nat) (buf : Nat → Nat)
    (inv : Invocation) : Nat → Nat :=
  fun addr => if addr = inv.outAddr then f inv.x inv.y inv.z inv.ar else buf addr

/-- Output buffer after a list of invocations runs in list order with a pure
kernel `f` of the coordinates. -/
def runInvocations (f : Nat → Nat → Nat → Nat → Nat) (invs : List Invocation)
    (buf : Nat → Nat) : Nat → Nat :=
  invs.foldl (writeInvocation f) buf

/-! ### Concrete fixtures used by witnesses and counterexamples -/

/-- A 1-D output allocation: 8 elements of 1 byte, contiguous. -/
def cAllocX8 : Alloc :=
  { dimX := 8, dimY := 0, dimZ := 0, elementSizeBytes := 1, mallocPtr := 0,
    stride := 8 }

/-- A 1-D output allocation: 4 elements of 1 byte, contiguous. -/
def cAlloc4 : Alloc :=
  { dimX := 4, dimY := 0, dimZ := 0, elementSizeBytes := 1, mallocPtr := 0,
    stride := 4 }

/-- An output allocation whose type has a Z dimension of 5. -/
def cAllocZ5 : Alloc :=
  { dimX := 4, dimY := 1, dimZ := 5, elementSizeBytes := 1, mallocPtr := 0,
    stride := 4 }

/-- Runtime context with a single worker. -/
def cHal1 : RsdHal := { workersCount := 1, mInForEach := false }

/-- Runtime context with two workers, no dispatch in flight. -/
def cHal2 : RsdHal := { workersCount := 2, mInForEach := false }

/-- Runtime context with four workers, no dispatch in flight. -/
def cHal4 : RsdHal := { workersCount := 4, mInForEach := false }

/-- A threadable script. -/
def cScript : ScriptInfo := { isThreadable := true }

/-- A clip restricting X to `[2, 4)` and leaving Y unclipped. -/
def cClip24 : RsScriptCall :=
  { xStart := 2, xEnd := 4, yStart := 0, yEnd := 0, zStart := 0, zEnd := 0,
    arrayStart := 0, arrayEnd := 0 }

/-- A clip whose clamped X range is empty (`xStart = xEnd = 3`). -/
def cClipEmpty : RsScriptCall :=
  { xStart := 3, xEnd := 3, yStart := 0, yEnd := 0, zStart := 0, zEnd := 0,
    arrayStart := 0, arrayEnd := 0 }

/-- A clip with both end fields 0 and nonzero start fields. -/
def cClipZeroEnds : RsScriptCall :=
  { xStart := 7, xEnd := 0, yStart := 9, yEnd := 0, zStart := 0, zEnd := 0,
    arrayStart := 0, arrayEnd := 0 }

/-- The resolved bounds of a dispatch over `cAllocX8` with no clip. -/
def cBoundsX8 : ResolvedBounds :=
  { xStart := 0, xEnd := 8, yStart := 0, yEnd := 1, zStart := 0, zEnd := 1,
    arrayStart := 0, arrayEnd := 1, dimX := 8, dimY := 0, dimZ := 0 }

/-- The concrete pure kernel used in the equivalence counterexample. -/
def cKernel (x _y _z _ar : Nat) : Nat := x + 1

/-- An all-zero output buffer. -/
def cZeroBuf : Nat → Nat := fun _ => 0

/-! ### Properties of the slice-claiming arithmetic -/

/-- Slices are in increasing position: an earlier counter value's slice ends
no later than a later counter value's slice starts. -/
theorem claimSlice_le (a b s : Nat) {i j : Nat} (hij : i < j) :
    (claimSlice a b s i).2 ≤ (claimSlice a b s j).1 := by
  unfold claimSlice
  have h1 : (i + 1) * s ≤ j * s := Nat.mul_le_mul_right s hij
  have h2 : i * s + s = (i + 1) * s := by ring
  have h3 : a + i * s + s ≤ a + j * s := by omega
  exact le_trans (Nat.min_le_left _ _) h3

/-- Every point of `[a, b)` lies in the slice of counter value `(x - a) / s`. -/
theorem claimSlice_cover (a b s x : Nat) (hs : 1 ≤ s) (hax : a ≤ x)
    (hxb : x < b) :
    (claimSlice a b s ((x - a) / s)).1 ≤ x ∧
      x < (claimSlice a b s ((x - a) / s)).2 := by
  unfold claimSlice
  have hdm := Nat.div_add_mod (x - a) s
  have hml : (x - a) % s < s := Nat.mod_lt _ hs
  have hcm : ((x - a) / s) * s = s * ((x - a) / s) := Nat.mul_comm _ _
  constructor
  · omega
  · omega

/-- C3: for every `sliceSize ≥ 1` and every range `[axisStart, axisEnd)`, the
slices obtained by claiming successive counter values — slice `i` being
`[axisStart + i*sliceSize, min (axisStart + (i+1)*sliceSize) axisEnd)` — are
in increasing position (hence pairwise disjoint), every point of
`[axisStart, axisEnd)` lies in exactly one slice and every slice point lies
in `[axisStart, axisEnd)` (no gaps, union exactly the range), and emptiness
of slices is monotone in the counter value, so stopping at the first empty
slice loses no work. -/
theorem claimNextSlice_partition (a b s : Nat) (hs : 1 ≤ s) :
    (∀ i j, i < j → (claimSlice a b s i).2 ≤ (claimSlice a b s j).1) ∧
    (∀ x, (a ≤ x ∧ x < b) ↔
      ∃! i, (claimSlice a b s i).1 ≤ x ∧ x < (claimSlice a b s i).2) ∧
    (∀ i, (claimSlice a b s i).2 ≤ (claimSlice a b s i).1 →
      (claimSlice a b s (i + 1)).2 ≤ (claimSlice a b s (i + 1)).1) := by
  refine ⟨fun i j hij => claimSlice_le a b s hij, fun x => ⟨?_, ?_⟩, ?_⟩
  · rintro ⟨hax, hxb⟩
    refine ⟨(x - a) / s, claimSlice_cover a b s x hs hax hxb, ?_⟩
    intro j hj
    rcases Nat.lt_trichotomy j ((x - a) / s) with h | h | h
    · exfalso
      have ho := claimSlice_le a b s h
      have hc := claimSlice_cover a b s x hs hax hxb
      omega
    · exact h
    · exfalso
      have ho := claimSlice_le a b s h
      have hc := claimSlice_cover a b s x hs hax hxb
      omega
  · rintro ⟨i, ⟨h1, h2⟩, -⟩
    unfold claimSlice at h1 h2
    constructor
    · exact le_trans (Nat.le_add_right a (i * s)) h1
    · exact lt_of_lt_of_le h2 (Nat.min_le_right _ _)
  · intro i h
    unfold claimSlice at h ⊢
    have h2 : i * s + s = (i + 1) * s := by ring
    have h3 : (i + 1) * s + s = (i + 1 + 1) * s := by ring
    omega

/-- Witness for C3 at the spec's sample point `axisExtent = 1000`,
`workerCount = 8`: the slice size the partitioner computes there is positive
and the partition property holds for it on `[0, 1000)`. -/
theorem claimNextSlice_partition_witness :
    (1 ≤ computeSliceSize 1000 8) ∧
    ((∀ i j, i < j →
        (claimSlice 0 1000 (computeSliceSize 1000 8) i).2 ≤
          (claimSlice 0 1000 (computeSliceSize 1000 8) j).1) ∧
     (∀ x, (0 ≤ x ∧ x < 1000) ↔
        ∃! i, (claimSlice 0 1000 (computeSliceSize 1000 8) i).1 ≤ x ∧
          x < (claimSlice 0 1000 (computeSliceSize 1000 8) i).2) ∧
     (∀ i, (claimSlice 0 1000 (computeSliceSize 1000 8) i).2 ≤
            (claimSlice 0 1000 (computeSliceSize 1000 8) i).1 →
        (claimSlice 0 1000 (computeSliceSize 1000 8) (i + 1)).2 ≤
          (claimSlice 0 1000 (computeSliceSize 1000 8) (i + 1)).1)) :=
  ⟨by decide, claimNextSlice_partition 0 1000 (computeSliceSize 1000 8) (by decide)⟩

/-! ### Evaluations of the dispatcher at the failing inputs of the
X-sliced parallel path -/

/-- C1: evaluation of the code at a failing input. Dispatching over an 8×1
domain with 2 workers takes the X-sliced parallel path with slice size 1
(8 non-empty slices), and because `wc_x` loops `x` over the full
`[xStart, xEnd)` for every claimed slice instead of the slice's sub-range,
the coordinate tuple `(0,0,0,0)` is invoked 8 times and 64 invocations are
performed over a domain of 8 elements — not the exactly-once coverage the
claim states. -/
theorem wcx_coverage_failing_eval :
    ((rsdScriptInvokeForEach cHal2 cScript none (some cAllocX8) none).usedParallel
        = true) ∧
    (((rsdScriptInvokeForEach cHal2 cScript none (some cAllocX8)
          none).invocations.map fun inv => (inv.x, inv.y, inv.z, inv.ar)).count
        (0, 0, 0, 0) = 8) ∧
    ((rsdScriptInvokeForEach cHal2 cScript none (some cAllocX8)
        none).invocations.length = 64) := by
  decide

/-- C2: evaluation of the code at a failing input. For the pure kernel
`f x _ _ _ = x + 1` over an 8×1 domain, the sequential dispatch (1 worker)
leaves byte 1 of the output buffer equal to `f 1 = 2`, while the parallel
dispatch (4 workers, slices processed in counter order) leaves it equal to
`f 0 = 1`, because each `wc_x` slice re-runs the full X range at addresses
shifted to the slice start, so later slices overwrite earlier elements. The
buffers are not byte-identical. -/
theorem seq_parallel_buffers_differ_eval :
    (runInvocations cKernel
      (rsdScriptInvokeForEach cHal1 cScript none (some cAllocX8)
        none).invocations cZeroBuf 1 = 2) ∧
    (runInvocations cKernel
      (rsdScriptInvokeForEach cHal4 cScript none (some cAllocX8)
        none).invocations cZeroBuf 1 = 1) := by
  decide

/-! ### Error handling and bounds resolution -/

/-- C4: a dispatch with neither an input nor an output allocation reports the
missing-buffer error (`RS_ERROR_BAD_SCRIPT`, "rsForEach called with null
allocations") and performs zero kernel invocations, for every runtime
context, script, and clip descriptor. -/
theorem missing_buffers_rejected :
    ∀ (dc : RsdHal) (s : ScriptInfo) (sc : Option RsScriptCall),
      (rsdScriptInvokeForEach dc s none none sc).err = some RsError.badScript ∧
      (rsdScriptInvokeForEach dc s none none sc).invocations = [] := by
  intro dc s sc
  constructor <;> rfl

/-- Witness for C4 at a concrete input: a single-worker context, threadable
script, no allocations, no clip. -/
theorem missing_buffers_rejected_witness :
    (rsdScriptInvokeForEach cHal1 cScript none none none).err =
      some RsError.badScript ∧
    (rsdScriptInvokeForEach cHal1 cScript none none none).invocations = [] :=
  missing_buffers_rejected cHal1 cScript none

/-- Projection of the resolved Z end bound, `none` when resolution does not
produce bounds. -/
def resolvedZEnd : ResolveResult → Option Nat
  | .ok b => some b.zEnd
  | _ => none

/-- C6 counterexample: for an output-only allocation whose type has
`dimZ = 5` and no clip, the Z end bound resolves to 1, not to the buffer's
full Z dimension — the dispatcher never assigns the buffer's Z (or array)
dimension to the corresponding end bound, contradicting the claim's
"every axis" fallback. -/
theorem axis_fallback_z_counterexample :
    resolvedZEnd (resolveBounds none (some cAllocZ5) none) = some 1 ∧
    resolvedZEnd (resolveBounds none (some cAllocZ5) none) ≠
      some cAllocZ5.dimZ := by
  decide

/-- C9 counterexample: a sequential dispatch over a 4-element 1-D buffer with
element stride 1 and an X clip of `[2, 4)` invokes the kernel at coordinates
`x = 2, 3` but at byte offsets 0 and 1: the row base offset of the sequential
loop omits `xStart`, so the address is not
`elementStride * (((ar*dimZ + z)*dimY + y)*dimX + x)` (which would give
offsets 2 and 3) as the claim states. -/
theorem seq_addressing_counterexample :
    (((rsdScriptInvokeForEach cHal1 cScript none (some cAlloc4)
          (some cClip24)).invocations.map fun inv => (inv.x, inv.outAddr)) =
      [(2, 0), (3, 1)]) ∧
    (((rsdScriptInvokeForEach cHal1 cScript none (some cAlloc4)
          (some cClip24)).invocations.map fun inv => (inv.x, inv.outAddr)) ≠
      [(2, 2), (3, 3)]) := by
  decide

/-! ### Parallel-vs-sequential decision and the re-entrancy flag -/

/-- A dispatch on a context whose `mInForEach` flag is set never takes the
parallel branch. -/
theorem usedParallel_false_of_inForEach (dc : RsdHal)
    (h : dc.mInForEach = true) (s : ScriptInfo) (ain aout : Option Alloc)
    (sc : Option RsScriptCall) :
    (rsdScriptInvokeForEach dc s ain aout sc).usedParallel = false := by
  unfold rsdScriptInvokeForEach
  rcases hres : resolveBounds ain aout sc with _ | _ | b
  · rfl
  · rfl
  · have hcond : ¬(1 < dc.workersCount ∧ s.isThreadable = true ∧
        dc.mInForEach = false) := by
      rintro ⟨-, -, hf⟩
      rw [h] at hf
      exact absurd hf (by simp)
    simp [hcond]

/-- C5: for every dispatch that reaches the execution decision (bounds
resolved), the parallel branch is taken exactly when the worker pool has more
than one worker, the script is threadable, and the context's `mInForEach`
flag is clear; on the parallel branch the flag is set while the kernels run;
on return the flag always equals its value at entry (in particular it is
cleared again after a parallel launch); and a dispatch entered with the flag
set — such as one invoked from inside a running parallel dispatch on the same
context — executes sequentially. -/
theorem parallel_selection_iff (dc : RsdHal) (s : ScriptInfo)
    (ain aout : Option Alloc) (sc : Option RsScriptCall) (b : ResolvedBounds)
    (hres : resolveBounds ain aout sc = ResolveResult.ok b) :
    (((rsdScriptInvokeForEach dc s ain aout sc).usedParallel = true) ↔
      (1 < dc.workersCount ∧ s.isThreadable = true ∧ dc.mInForEach = false)) ∧
    ((rsdScriptInvokeForEach dc s ain aout sc).usedParallel = true →
      (rsdScriptInvokeForEach dc s ain aout sc).inForEachDuring = true) ∧
    ((rsdScriptInvokeForEach dc s ain aout sc).mInForEachFinal =
      dc.mInForEach) ∧
    (dc.mInForEach = true →
      (rsdScriptInvokeForEach dc s ain aout sc).usedParallel = false) ∧
    ((rsdScriptInvokeForEach dc s ain aout sc).usedParallel = true →
      ∀ (s2 : ScriptInfo) (ain2 aout2 : Option Alloc)
        (sc2 : Option RsScriptCall),
        (rsdScriptInvokeForEach
          { dc with mInForEach :=
              (rsdScriptInvokeForEach dc s ain aout sc).inForEachDuring }
          s2 ain2 aout2 sc2).usedParallel = false) := by
  by_cases hcond : 1 < dc.workersCount ∧ s.isThreadable = true ∧
      dc.mInForEach = false
  · have hpar : (rsdScriptInvokeForEach dc s ain aout sc).usedParallel = true ∧
        (rsdScriptInvokeForEach dc s ain aout sc).inForEachDuring = true ∧
        (rsdScriptInvokeForEach dc s ain aout sc).mInForEachFinal = false := by
      unfold rsdScriptInvokeForEach
      rw [hres]
      by_cases hy : 1 < b.dimY <;> simp [hcond, hy]
    refine ⟨by simp [hpar.1, hcond], fun _ => hpar.2.1, ?_, ?_, ?_⟩
    · rw [hpar.2.2, hcond.2.2]
    · intro h
      rw [h] at hcond
      exact absurd hcond.2.2 (by simp)
    · intro _ s2 ain2 aout2 sc2
      exact usedParallel_false_of_inForEach _ (by simp [hpar.2.1]) s2 ain2 aout2 sc2
  · have hseq : (rsdScriptInvokeForEach dc s ain aout sc).usedParallel = false ∧
        (rsdScriptInvokeForEach dc s ain aout sc).mInForEachFinal =
          dc.mInForEach := by
      unfold rsdScriptInvokeForEach
      rw [hres]
      simp [hcond]
    refine ⟨by simp [hseq.1, hcond], ?_, hseq.2, fun _ => hseq.1, ?_⟩
    · intro h
      rw [hseq.1] at h
      exact absurd h (by simp)
    · intro h
      rw [hseq.1] at h
      exact absurd h (by simp)

/-- Witness for C5 at a concrete input: a 4-worker context, a threadable
script, an output-only 8×1 allocation, and no clip resolve to `cBoundsX8`,
and the decision/flag properties hold there. -/
theorem parallel_selection_iff_witness :
    resolveBounds none (some cAllocX8) none = ResolveResult.ok cBoundsX8 ∧
    ((((rsdScriptInvokeForEach cHal4 cScript none (some cAllocX8)
          none).usedParallel = true) ↔
        (1 < cHal4.workersCount ∧ cScript.isThreadable = true ∧
          cHal4.mInForEach = false)) ∧
      ((rsdScriptInvokeForEach cHal4 cScript none (some cAllocX8)
          none).usedParallel = true →
        (rsdScriptInvokeForEach cHal4 cScript none (some cAllocX8)
          none).inForEachDuring = true) ∧
      ((rsdScriptInvokeForEach cHal4 cScript none (some cAllocX8)
          none).mInForEachFinal = cHal4.mInForEach) ∧
      (cHal4.mInForEach = true →
        (rsdScriptInvokeForEach cHal4 cScript none (some cAllocX8)
          none).usedParallel = false) ∧
      ((rsdScriptInvokeForEach cHal4 cScript none (some cAllocX8)
          none).usedParallel = true →
        ∀ (s2 : ScriptInfo) (ain2 aout2 : Option Alloc)
          (sc2 : Option RsScriptCall),
          (rsdScriptInvokeForEach
            { cHal4 with mInForEach :=
                (rsdScriptInvokeForEach cHal4 cScript none (some cAllocX8)
                  none).inForEachDuring }
            s2 ain2 aout2 sc2).usedParallel = false)) :=
  ⟨by decide,
   parallel_selection_iff cHal4 cScript none (some cAllocX8) none cBoundsX8
     (by decide)⟩

/-- The resolved bounds of a dispatch over `cAllocZ5` with no clip. -/
def cBoundsZ5 : ResolvedBounds :=
  { xStart := 0, xEnd := 4, yStart := 0, yEnd := 1, zStart := 0, zEnd := 1,
    arrayStart := 0, arrayEnd := 1, dimX := 4, dimY := 1, dimZ := 5 }

/-- C6 (amended): whenever bounds resolve, the X and Y axes fall back to the
bound buffer's full dimension (floored to 1) when the clip end bound
resolves to 0 with no explicit clip; the Z and array end bounds always
resolve to 1 regardless of the buffer's Z dimension; and every axis's
resolved end bound is at least 1, so a flat buffer yields exactly one
iteration step on that axis. -/
theorem axis_fallback_resolved (ain aout : Option Alloc)
    (sc : Option RsScriptCall) (dx dy dz : Nat) (b : ResolvedBounds)
    (hdims : allocDims ain aout = some (dx, dy, dz))
    (hok : resolveBounds ain aout sc = ResolveResult.ok b) :
    ((sc = none ∨ (∃ c, sc = some c ∧ c.xEnd = 0)) →
      b.xStart = 0 ∧ b.xEnd = max 1 dx) ∧
    ((sc = none ∨ (∃ c, sc = some c ∧ c.yEnd = 0)) →
      b.yStart = 0 ∧ b.yEnd = max 1 dy) ∧
    (b.zEnd = 1 ∧ b.arrayEnd = 1) ∧
    (1 ≤ b.xEnd ∧ 1 ≤ b.yEnd ∧ 1 ≤ b.zEnd ∧ 1 ≤ b.arrayEnd) := by
  rcases hx : resolveAxis dx (sc.map fun c => (c.xStart, c.xEnd)) with _ | ⟨xS, xE⟩
  · simp [resolveBounds, hdims, hx] at hok
  rcases hy : resolveAxis dy (sc.map fun c => (c.yStart, c.yEnd)) with _ | ⟨yS, yE⟩
  · simp [resolveBounds, hdims, hx, hy] at hok
  simp only [resolveBounds, hdims, hx, hy, ResolveResult.ok.injEq] at hok
  subst hok
  refine ⟨?_, ?_, ⟨show max 1 0 = 1 by decide, show max 1 0 = 1 by decide⟩,
    Nat.le_max_left 1 xE, Nat.le_max_left 1 yE,
    show (1 : Nat) ≤ max 1 0 by decide, show (1 : Nat) ≤ max 1 0 by decide⟩
  · rintro (hnone | ⟨c, hsc, hce⟩)
    · subst hnone
      simp [resolveAxis] at hx
      show xS = 0 ∧ max 1 xE = max 1 dx
      omega
    · subst hsc
      simp [resolveAxis, hce] at hx
      show xS = 0 ∧ max 1 xE = max 1 dx
      omega
  · rintro (hnone | ⟨c, hsc, hce⟩)
    · subst hnone
      simp [resolveAxis] at hy
      show yS = 0 ∧ max 1 yE = max 1 dy
      omega
    · subst hsc
      simp [resolveAxis, hce] at hy
      show yS = 0 ∧ max 1 yE = max 1 dy
      omega

/-- Witness for C6's amended statement at a concrete input: an output-only
allocation with dimensions `(4, 1, 5)` and no clip. -/
theorem axis_fallback_resolved_witness :
    (allocDims none (some cAllocZ5) = some (4, 1, 5) ∧
      resolveBounds none (some cAllocZ5) none = ResolveResult.ok cBoundsZ5) ∧
    ((((none : Option RsScriptCall) = none ∨
        (∃ c, (none : Option RsScriptCall) = some c ∧ c.xEnd = 0)) →
      cBoundsZ5.xStart = 0 ∧ cBoundsZ5.xEnd = max 1 4) ∧
    (((none : Option RsScriptCall) = none ∨
        (∃ c, (none : Option RsScriptCall) = some c ∧ c.yEnd = 0)) →
      cBoundsZ5.yStart = 0 ∧ cBoundsZ5.yEnd = max 1 1) ∧
    (cBoundsZ5.zEnd = 1 ∧ cBoundsZ5.arrayEnd = 1) ∧
    (1 ≤ cBoundsZ5.xEnd ∧ 1 ≤ cBoundsZ5.yEnd ∧ 1 ≤ cBoundsZ5.zEnd ∧
      1 ≤ cBoundsZ5.arrayEnd)) :=
  ⟨⟨by decide, by decide⟩,
   axis_fallback_resolved none (some cAllocZ5) none 4 1 5 cBoundsZ5
     (by decide) (by decide)⟩

/-- C7: whenever the parallel branch is taken, the sliced axis is Y exactly
when `dimY > 1` and X otherwise, and the slice size used is
`max 1 (axisExtent / (workerCount * 4))` of the sliced axis's dimension;
moreover the slice size computation is that pure function of the extent and
the worker count for all arguments. -/
theorem parallel_slice_size_formula (dc : RsdHal) (s : ScriptInfo)
    (ain aout : Option Alloc) (sc : Option RsScriptCall) (b : ResolvedBounds)
    (hres : resolveBounds ain aout sc = ResolveResult.ok b)
    (hpar : (rsdScriptInvokeForEach dc s ain aout sc).usedParallel = true) :
    ((rsdScriptInvokeForEach dc s ain aout sc).slicedAxis =
      some (if 1 < b.dimY then Axis.y else Axis.x)) ∧
    ((rsdScriptInvokeForEach dc s ain aout sc).sliceSize =
      max 1 ((if 1 < b.dimY then b.dimY else b.dimX) /
        (dc.workersCount * 4))) ∧
    (∀ e w, computeSliceSize e w = max 1 (e / (w * 4))) := by
  have hform : ∀ e w, computeSliceSize e w = max 1 (e / (w * 4)) := by
    intro e w
    simp only [computeSliceSize]
    split <;> omega
  by_cases hcond : 1 < dc.workersCount ∧ s.isThreadable = true ∧
      dc.mInForEach = false
  · by_cases hy : 1 < b.dimY
    · refine ⟨?_, ?_, hform⟩ <;>
        simp [rsdScriptInvokeForEach, hres, hcond, hy, hform]
    · refine ⟨?_, ?_, hform⟩ <;>
        simp [rsdScriptInvokeForEach, hres, hcond, hy, hform]
  · exfalso
    rw [show (rsdScriptInvokeForEach dc s ain aout sc).usedParallel = false by
      simp [rsdScriptInvokeForEach, hres, hcond]] at hpar
    exact absurd hpar (by simp)

/-- Witness for C7 at a concrete input: a 2-worker context, threadable
script, output-only 8×1 allocation, no clip — the X axis is sliced with
slice size `max 1 (8 / (2*4)) = 1`. -/
theorem parallel_slice_size_formula_witness :
    (resolveBounds none (some cAllocX8) none = ResolveResult.ok cBoundsX8 ∧
      (rsdScriptInvokeForEach cHal2 cScript none (some cAllocX8)
        none).usedParallel = true) ∧
    ((rsdScriptInvokeForEach cHal2 cScript none (some cAllocX8)
        none).slicedAxis = some (if 1 < cBoundsX8.dimY then Axis.y else Axis.x)) ∧
    ((rsdScriptInvokeForEach cHal2 cScript none (some cAllocX8)
        none).sliceSize =
      max 1 ((if 1 < cBoundsX8.dimY then cBoundsX8.dimY else cBoundsX8.dimX) /
        (cHal2.workersCount * 4))) ∧
    (∀ e w, computeSliceSize e w = max 1 (e / (w * 4))) :=
  ⟨⟨by decide, by decide⟩,
   parallel_slice_size_formula cHal2 cScript none (some cAllocX8) none
     cBoundsX8 (by decide) (by decide)⟩

/-- Definitional unfolding of `resolveAxis` on a present clip pair. -/
theorem resolveAxis_some_unfold (dim s e : Nat) :
    resolveAxis dim (some (s, e)) =
      if e = 0 then some (0, dim)
      else if min dim e ≤ min dim s then none
      else some (min dim s, min dim e) := rfl

/-- C8: if the clamped clip range on an axis is empty (start ≥ end after
clamping, with a nonzero end field so the clip is explicit), the dispatch
returns immediately with no error, zero kernel invocations, and without
taking the parallel branch. -/
theorem empty_clip_noop (dc : RsdHal) (s : ScriptInfo)
    (ain aout : Option Alloc) (c : RsScriptCall) (dx dy dz : Nat)
    (hdims : allocDims ain aout = some (dx, dy, dz))
    (hemp : (c.xEnd ≠ 0 ∧ min dx c.xEnd ≤ min dx c.xStart) ∨
            (c.yEnd ≠ 0 ∧ min dy c.yEnd ≤ min dy c.yStart)) :
    (rsdScriptInvokeForEach dc s ain aout (some c)).err = none ∧
    (rsdScriptInvokeForEach dc s ain aout (some c)).invocations = [] ∧
    (rsdScriptInvokeForEach dc s ain aout (some c)).usedParallel = false := by
  have hres : resolveBounds ain aout (some c) = ResolveResult.emptyClip := by
    rcases hemp with ⟨h0, hle⟩ | ⟨h0, hle⟩
    · have hx : resolveAxis dx (some (c.xStart, c.xEnd)) = none := by
        rw [resolveAxis_some_unfold, if_neg h0, if_pos hle]
      simp [resolveBounds, hdims, hx]
    · have hy : resolveAxis dy (some (c.yStart, c.yEnd)) = none := by
        rw [resolveAxis_some_unfold, if_neg h0, if_pos hle]
      rcases hx : resolveAxis dx (some (c.xStart, c.xEnd)) with _ | ⟨xS, xE⟩
      · simp [resolveBounds, hdims, hx]
      · simp [resolveBounds, hdims, hx, hy]
  simp [rsdScriptInvokeForEach, hres]

/-- Witness for C8 at a concrete input: a clip with `xStart = xEnd = 3` over
a 4-element 1-D allocation. -/
theorem empty_clip_noop_witness :
    (allocDims none (some cAlloc4) = some (4, 0, 0) ∧
      ((cClipEmpty.xEnd ≠ 0 ∧
          min 4 cClipEmpty.xEnd ≤ min 4 cClipEmpty.xStart) ∨
       (cClipEmpty.yEnd ≠ 0 ∧
          min 0 cClipEmpty.yEnd ≤ min 0 cClipEmpty.yStart))) ∧
    ((rsdScriptInvokeForEach cHal2 cScript none (some cAlloc4)
        (some cClipEmpty)).err = none ∧
     (rsdScriptInvokeForEach cHal2 cScript none (some cAlloc4)
        (some cClipEmpty)).invocations = [] ∧
     (rsdScriptInvokeForEach cHal2 cScript none (some cAlloc4)
        (some cClipEmpty)).usedParallel = false) :=
  ⟨⟨by decide, by decide⟩,
   empty_clip_noop cHal2 cScript none (some cAlloc4) cClipEmpty 4 0 0
     (by decide) (by decide)⟩

/-- C10: a supplied clip whose `xEnd` field is 0 has its `xStart` field
ignored entirely — the resolution result is unchanged under any replacement
of `xStart` — and the X range resolves to `[0, dimX)`; likewise for
`yEnd = 0`, `yStart`, and `[0, dimY)` (for buffers whose dimensions are at
least 1, where the minimum-1 flooring is the identity). -/
theorem clip_end_zero_ignores_start (ain aout : Option Alloc)
    (c : RsScriptCall) (dx dy dz sx sy : Nat)
    (hdims : allocDims ain aout = some (dx, dy, dz))
    (hdx : 1 ≤ dx) (hdy : 1 ≤ dy) :
    (c.xEnd = 0 →
      (∀ b, resolveBounds ain aout (some c) = ResolveResult.ok b →
        b.xStart = 0 ∧ b.xEnd = dx) ∧
      resolveBounds ain aout (some c) =
        resolveBounds ain aout (some { c with xStart := sx })) ∧
    (c.yEnd = 0 →
      (∀ b, resolveBounds ain aout (some c) = ResolveResult.ok b →
        b.yStart = 0 ∧ b.yEnd = dy) ∧
      resolveBounds ain aout (some c) =
        resolveBounds ain aout (some { c with yStart := sy })) := by
  constructor
  · intro hce
    have hxres : ∀ s0 : Nat,
        resolveAxis dx (some (s0, c.xEnd)) = some (0, dx) := by
      intro s0
      rw [resolveAxis_some_unfold, if_pos hce]
    constructor
    · intro b hok
      rcases hy : resolveAxis dy (some (c.yStart, c.yEnd)) with _ | ⟨yS, yE⟩ <;>
        simp only [resolveBounds, hdims, Option.map_some', hxres, hy,
          ResolveResult.ok.injEq] at hok
      · exact absurd hok (by simp)
      · subst hok
        exact ⟨rfl, show max 1 dx = dx by omega⟩
    · simp only [resolveBounds, hdims, Option.map_some', hxres]
  · intro hce
    have hyres : ∀ s0 : Nat,
        resolveAxis dy (some (s0, c.yEnd)) = some (0, dy) := by
      intro s0
      rw [resolveAxis_some_unfold, if_pos hce]
    constructor
    · intro b hok
      rcases hx : resolveAxis dx (some (c.xStart, c.xEnd)) with _ | ⟨xS, xE⟩ <;>
        simp only [resolveBounds, hdims, Option.map_some', hx, hyres,
          ResolveResult.ok.injEq] at hok
      · exact absurd hok (by simp)
      · subst hok
        exact ⟨rfl, show max 1 dy = dy by omega⟩
    · rcases hx : resolveAxis dx (some (c.xStart, c.xEnd)) with _ | ⟨xS, xE⟩ <;>
        simp only [resolveBounds, hdims, Option.map_some', hx, hyres]

/-- Witness for C10 at a concrete input: a clip with both end fields 0 and
nonzero start fields over an allocation with dimensions `(4, 1, 5)`. -/
theorem clip_end_zero_ignores_start_witness :
    (allocDims none (some cAllocZ5) = some (4, 1, 5) ∧ 1 ≤ 4 ∧ 1 ≤ 1) ∧
    ((cClipZeroEnds.xEnd = 0 →
      (∀ b, resolveBounds none (some cAllocZ5) (some cClipZeroEnds) =
          ResolveResult.ok b → b.xStart = 0 ∧ b.xEnd = 4) ∧
      resolveBounds none (some cAllocZ5) (some cClipZeroEnds) =
        resolveBounds none (some cAllocZ5)
          (some { cClipZeroEnds with xStart := 5 })) ∧
    (cClipZeroEnds.yEnd = 0 →
      (∀ b, resolveBounds none (some cAllocZ5) (some cClipZeroEnds) =
          ResolveResult.ok b → b.yStart = 0 ∧ b.yEnd = 1) ∧
      resolveBounds none (some cAllocZ5) (some cClipZeroEnds) =
        resolveBounds none (some cAllocZ5)
          (some { cClipZeroEnds with yStart := 6 }))) :=
  ⟨⟨by decide, by decide, by decide⟩,
   clip_end_zero_ignores_start none (some cAllocZ5) cClipZeroEnds 4 1 5 5 6
     (by decide) (by decide) (by decide)⟩

/-- The sequential traversal as the amended C9 claim describes it: strict
nested loops in array, z, y, x order (outermost to innermost), each element
addressed at the single flattened offset
`(((ar*dimZ + z)*dimY + y)*dimX + (x - xStart))` times the element stride,
with the row stride unused. -/
def seqSpecTraversal (m : MTLaunchStruct) : List Invocation :=
  (List.range' m.arrayStart (m.arrayEnd - m.arrayStart)).flatMap fun ar =>
    (List.range' m.zStart (m.zEnd - m.zStart)).flatMap fun z =>
      (List.range' m.yStart (m.yEnd - m.yStart)).flatMap fun y =>
        (List.range' m.xStart (m.xEnd - m.xStart)).map fun x =>
          { inAddr := m.ptrIn + m.eStrideIn *
              (((ar * m.dimZ + z) * m.dimY + y) * m.dimX + (x - m.xStart)),
            outAddr := m.ptrOut + m.eStrideOut *
              (((ar * m.dimZ + z) * m.dimY + y) * m.dimX + (x - m.xStart)),
            x := x, y := y, z := z, ar := ar }

/-- C9 (amended): the sequential fallback visits coordinates by strict
nested loops in array, z, y, x order and addresses element
`(x, y, z, ar)` at `elementStride * (((ar*dimZ + z)*dimY + y)*dimX +
(x - xStart))` — the claimed formula with `x` replaced by `x - xStart`,
coinciding with the claim exactly when `xStart = 0` — and it never reads the
row strides. -/
theorem seq_traversal_amended (m : MTLaunchStruct) :
    seqInvocations m = seqSpecTraversal m ∧
    ∀ a b, seqInvocations { m with yStrideIn := a, yStrideOut := b } =
      seqInvocations m := by
  constructor
  · unfold seqInvocations seqSpecTraversal
    refine congrArg (List.flatMap _) (funext fun ar => ?_)
    refine congrArg (List.flatMap _) (funext fun z => ?_)
    refine congrArg (List.flatMap _) (funext fun y => ?_)
    rw [List.range'_eq_map_range, List.map_map]
    refine congrArg (fun f => List.map f (List.range (m.xEnd - m.xStart))) ?_
    funext i
    simp only [Function.comp_apply, Invocation.mk.injEq]
    have h : m.xStart + i - m.xStart = i := by omega
    rw [h]
    exact ⟨by ring, by ring, trivial, trivial, trivial, trivial⟩
  · intro a b
    rfl

end RsdDriver
